import Mathlib

/-!
Verification of the Uni-Dock orchestrator (`src/main/main.cpp`).

Shallow embedding notes:
* C++ `double` arithmetic in `predict_peak_memory` and the memory-budget
  computation is modelled with exact rationals (ℚ); the decimal coefficient
  literals are scaled by `10^7` so the predictor is an exact natural-number
  computation, and the final C cast `(int)` on a nonnegative value is
  truncation, i.e. `Nat` floor division.
* The machine `int`/`size_t` quantities that the scheduler manipulates
  (batch sizes, atom counts, accumulated atom² cost) are modelled with
  unbounded `ℕ`; none of the checked claims concerns wrap-around.
* The two nested scheduling `while` loops of `main` are embedded as
  `fillBatch` (inner loop, structural recursion on the remaining ligand
  list) and `runBatches` (outer loop, with explicit fuel: `none` models a
  run of the outer loop that performs `fuel` iterations without emptying
  the ligand list, i.e. divergence when it holds for all fuel).
* A ligand is represented by its atom count (`get_atoms().size()`), the
  only datum the scheduler reads from a parsed model.
-/

/-- Direct embedding of `predict_peak_memory` (main.cpp lines 69-80).
The decimal coefficients are exact: each branch computes
`(c0*batch_size + c1*exhaustiveness*batch_size + c2*all_atom2_numbers + c3)`
scaled by `10^7`, then truncates, which for nonnegative values is `Nat`
division by `10^7`. -/
def predict_peak_memory (batch_size exhaustiveness all_atom2_numbers : ℕ)
    (use_v100 ad4 : Bool) : ℕ :=
  if use_v100 then
    if ad4 then
      (19116450 * batch_size + 39108 * exhaustiveness * batch_size
        + 792161 * all_atom2_numbers + 200526400000) / 10 ^ 7
    else
      (12148690 * batch_size + 38522 * exhaustiveness * batch_size
        + 119780 * all_atom2_numbers + 200177200000) / 10 ^ 7
  else
    (11660670 * batch_size + 38676 * exhaustiveness * batch_size
      + 119598 * all_atom2_numbers + 53138480000) / 10 ^ 7

/-- Coefficient `c0` of the spec's affine model, per device class and
scoring family (spec §4.3). -/
def pm_c0 : Bool → Bool → ℚ
  | true, true => 1.911645
  | true, false => 1.214869
  | false, _ => 1.166067

/-- Coefficient `c1` of the spec's affine model. -/
def pm_c1 : Bool → Bool → ℚ
  | true, true => 0.0039108
  | true, false => 0.0038522
  | false, _ => 0.0038676

/-- Coefficient `c2` of the spec's affine model. -/
def pm_c2 : Bool → Bool → ℚ
  | true, true => 0.0792161
  | true, false => 0.011978
  | false, _ => 0.0119598

/-- Coefficient `c3` of the spec's affine model. -/
def pm_c3 : Bool → Bool → ℚ
  | true, true => 20052.64
  | true, false => 20017.72
  | false, _ => 5313.848

/-- The spec's demanded shape for the predictor (spec §4.3):
`predicted = c0*batch_size + c1*exhaustiveness*batch_size + c2*cost + c3`,
with coefficients chosen by device class and scoring family. -/
def predict_spec_formula (batch_size exhaustiveness cost : ℕ)
    (use_v100 ad4 : Bool) : ℚ :=
  pm_c0 use_v100 ad4 * batch_size
    + pm_c1 use_v100 ad4 * exhaustiveness * batch_size
    + pm_c2 use_v100 ad4 * cost + pm_c3 use_v100 ad4

/-- Scheduler parameters that stay fixed across the batch loop of `main`:
exhaustiveness, the device-class flag, the scoring-family flag and the
receptor atom count. -/
structure SchedCfg where
  exhaustiveness : ℕ
  use_v100 : Bool
  ad4 : Bool
  receptor_atoms : ℕ
deriving DecidableEq, Repr

/-- Cost contribution of one ligand (main.cpp lines 581-586):
`(ligand_atoms + receptor_atoms)^2`. -/
def ligCost (cfg : SchedCfg) (atoms : ℕ) : ℕ :=
  (atoms + cfg.receptor_atoms) ^ 2

/-- Accumulated `all_atom2_numbers` of a batch prefix. -/
def batchCost (cfg : SchedCfg) (ligs : List ℕ) : ℕ :=
  (ligs.map (ligCost cfg)).sum

/-- The predictor value, as the ℚ quantity `main` compares against the
float budget `max_memory` (line 577). -/
def predictQ (cfg : SchedCfg) (size cost : ℕ) : ℚ :=
  (predict_peak_memory size cfg.exhaustiveness cost cfg.use_v100 cfg.ad4 : ℚ)

/-- Inner batch-fill loop (main.cpp lines 577-588): starting from a running
`size` and `cost`, keep accepting the next ligand while
`predict_peak_memory(size, exhaustiveness, cost) < max_memory` and ligands
remain; returns the accepted batch and the untouched remainder. -/
def fillBatch (cfg : SchedCfg) (budget : ℚ) :
    ℕ → ℕ → List ℕ → List ℕ × List ℕ
  | _, _, [] => ([], [])
  | size, cost, a :: rest =>
    if predictQ cfg size cost < budget then
      (a :: (fillBatch cfg budget (size + 1) (cost + ligCost cfg a) rest).1,
        (fillBatch cfg budget (size + 1) (cost + ligCost cfg a) rest).2)
    else
      ([], a :: rest)

/-- Outer scheduling loop (main.cpp lines 570-609): while unprocessed
ligands remain, fill a batch from the front and submit it.  `fuel` bounds
the number of outer iterations; `none` means the loop was still running
after `fuel` iterations (the code itself has no bound: `none` for every
fuel is divergence). -/
def runBatches (cfg : SchedCfg) (budget : ℚ) :
    ℕ → List ℕ → Option (List (List ℕ))
  | _, [] => some []
  | 0, _ :: _ => none
  | fuel + 1, a :: rest =>
    (runBatches cfg budget fuel (fillBatch cfg budget 0 0 (a :: rest)).2).map
      (fun plan => (fillBatch cfg budget 0 0 (a :: rest)).1 :: plan)

/-- The scheduling loop diverges: no amount of fuel completes it. -/
def schedulerStalls (cfg : SchedCfg) (budget : ℚ) (ligs : List ℕ) : Prop :=
  ∀ fuel, runBatches cfg budget fuel ligs = none

/-- Result of the device memory probe of `main` (lines 532-552): the
effective budget `max_memory` (MiB, exact rational in place of C `float`)
and the device-class flag `use_v100`. -/
structure ProbeResult where
  max_memory : ℚ
  use_v100 : Bool
deriving DecidableEq, Repr

/-- Embedding of main.cpp lines 535-552: `max_memory` starts at the fixed
constant 32000; if a device is present it becomes
`(avail/1024/1024) * 0.95` (integer `size_t` divisions, then a float
product); the class flag is set from that value *before* the user ceiling
`--max_gpu_memory` is applied, and the ceiling replaces the budget only
when it is positive and smaller. -/
def probe_device (deviceCount avail_bytes : ℕ) (max_gpu_memory : ℤ) :
    ProbeResult :=
  let m0 : ℚ :=
    if 0 < deviceCount then ((avail_bytes / 1024 / 1024 : ℕ) : ℚ) * (95 / 100)
    else 32000
  let v : Bool := if m0 < 17000 then false else true
  let m1 : ℚ :=
    if 0 < max_gpu_memory ∧ (max_gpu_memory : ℚ) < m0 then (max_gpu_memory : ℚ)
    else m0
  ⟨m1, v⟩

/-- The configuration fields of `main` that its validation chain and mode
dispatch read (presence flags mirror `vm.count(...)`). -/
structure RunConfiguration where
  sf_name : String
  hasReceptor : Bool
  hasMaps : Bool
  hasLigand : Bool
  ligandCount : ℕ
  hasBatch : Bool
  hasGpuBatch : Bool
  hasLigandIndex : Bool
  hasDir : Bool
  dirExists : Bool
  hasOut : Bool
  score_only : Bool
  local_only : Bool
  randomize_only : Bool
deriving DecidableEq, Repr

/-- Rule of main.cpp lines 331-334: receptor and affinity maps are
mutually exclusive. -/
def validate_receptor_maps (c : RunConfiguration) : Bool :=
  !(c.hasReceptor && c.hasMaps)

/-- Scoring-function-specific rules (main.cpp lines 351-368): vina/vinardo
require a receptor or maps; ad4 forbids a receptor and requires maps; an
unknown scoring-function name is rejected. -/
def validate_scoring (c : RunConfiguration) : Bool :=
  if c.sf_name == "vina" || c.sf_name == "vinardo" then
    c.hasReceptor || c.hasMaps
  else if c.sf_name == "ad4" then
    !c.hasReceptor && c.hasMaps
  else
    false

/-- The scoring-function validation stage: the receptor/maps exclusivity
check followed by the scoring-function-specific rules, in code order. -/
def validate_sf (c : RunConfiguration) : Bool :=
  validate_receptor_maps c && validate_scoring c

/-- Ligand-source rules (main.cpp lines 370-386): some source must exist;
`--ligand` excludes the batch variants; a batch variant requires `--dir`;
a supplied output directory must exist. -/
def validate_ligand_source (c : RunConfiguration) : Bool :=
  if !c.hasLigand && !c.hasBatch && !c.hasGpuBatch && !c.hasLigandIndex then
    false
  else if c.hasLigand && (c.hasBatch || c.hasGpuBatch) then
    false
  else if (c.hasBatch || c.hasGpuBatch) && !c.hasDir then
    false
  else if c.hasDir then
    c.dirExists
  else
    true

/-- Output-name rule (main.cpp lines 388-396): outside `--score_only`,
one ligand without `--out` gets a derived name; several ligands without
`--out` are rejected. -/
def validate_out_name (c : RunConfiguration) : Bool :=
  if c.score_only then true
  else if !c.hasOut && c.ligandCount == 1 then true
  else if !c.hasOut && decide (1 ≤ c.ligandCount) then false
  else true

/-- The validation chain of `main`, in code order; `false` models a path
that calls `exit(EXIT_FAILURE)`. -/
def validate (c : RunConfiguration) : Bool :=
  validate_receptor_maps c && validate_scoring c
    && validate_ligand_source c && validate_out_name c

/-- The terminal action `main` dispatches to after validation. -/
inductive MainAction where
  | singleRandomize
  | singleScore
  | singleLocal
  | singleGlobalSearch
  | gpuBatchNotice
  | gpuBatchSearch
  | noLigandWork
deriving DecidableEq, Repr

/-- Mode dispatch of main.cpp lines 470-610: `--ligand` takes the single
CPU path (randomize > score_only > local_only > global search);
otherwise `--gpu_batch`/`--ligand_index` take the GPU batch path, which
prints a notice and returns 0 when any of the three restricted mode flags
is set; otherwise (CPU `--batch` only) `main` falls through and does no
engine work. -/
def dispatch (c : RunConfiguration) : MainAction :=
  if c.hasLigand then
    if c.randomize_only then MainAction.singleRandomize
    else if c.score_only then MainAction.singleScore
    else if c.local_only then MainAction.singleLocal
    else MainAction.singleGlobalSearch
  else if c.hasGpuBatch || c.hasLigandIndex then
    if c.randomize_only || c.score_only || c.local_only then
      MainAction.gpuBatchNotice
    else MainAction.gpuBatchSearch
  else MainAction.noLigandWork

/-- Whether the dispatched action performs any engine work (scoring,
search, or pose output). -/
def performsEngineWork : MainAction → Bool
  | MainAction.gpuBatchNotice => false
  | MainAction.noLigandWork => false
  | _ => true

/-- Whether the dispatched action prints the
"Not available under gpu_batch mode." notice (main.cpp line 510). -/
def emitsNotice : MainAction → Bool
  | MainAction.gpuBatchNotice => true
  | _ => false

/-- Exit code and dispatched action of a `main` run that reaches the
validation chain: a failed validation exits with code 1 before any
dispatch; every dispatched action of the model returns 0. -/
def mainRun (c : RunConfiguration) : ℕ × Option MainAction :=
  if validate c then (0, some (dispatch c)) else (1, none)

/-- Scheduler parameters of a high-memory-class (`use_v100 = true`)
vina-family run with exhaustiveness 8 and a receptor with no atoms;
used as a concrete instantiation in witnesses. -/
def cfgV100 : SchedCfg := ⟨8, true, false, 0⟩

/-- A validated configuration selecting the GPU batch path together with
`--score_only`. -/
def cfgGpuScore : RunConfiguration :=
  ⟨"vina", true, false, false, 0, false, true, false, true, true, false, true, false, false⟩

/-- A validated configuration whose only ligand source is the CPU batch
variant (`--batch` alone). -/
def cfgCpuBatch : RunConfiguration :=
  ⟨"vina", true, false, false, 0, true, false, false, true, true, false, false, false, false⟩

/-- An `ad4` configuration with neither receptor nor maps. -/
def cfgAd4NoMaps : RunConfiguration :=
  ⟨"ad4", false, false, false, 0, false, true, false, true, true, false, false, false, false⟩

theorem fillBatch_nil (cfg : SchedCfg) (b : ℚ) (size cost : ℕ) :
    fillBatch cfg b size cost [] = ([], []) := rfl

theorem fillBatch_cons (cfg : SchedCfg) (b : ℚ) (size cost a : ℕ) (rest : List ℕ) :
    fillBatch cfg b size cost (a :: rest) =
      if predictQ cfg size cost < b then
        (a :: (fillBatch cfg b (size + 1) (cost + ligCost cfg a) rest).1,
          (fillBatch cfg b (size + 1) (cost + ligCost cfg a) rest).2)
      else ([], a :: rest) := rfl

theorem runBatches_nil (cfg : SchedCfg) (b : ℚ) (fuel : ℕ) :
    runBatches cfg b fuel [] = some [] := by
  cases fuel <;> rfl

theorem runBatches_succ_cons (cfg : SchedCfg) (b : ℚ) (fuel a : ℕ) (rest : List ℕ) :
    runBatches cfg b (fuel + 1) (a :: rest) =
      (runBatches cfg b fuel (fillBatch cfg b 0 0 (a :: rest)).2).map
        (fun plan => (fillBatch cfg b 0 0 (a :: rest)).1 :: plan) := rfl

theorem batchCost_nil (cfg : SchedCfg) : batchCost cfg [] = 0 := rfl

theorem batchCost_cons (cfg : SchedCfg) (a : ℕ) (l : List ℕ) :
    batchCost cfg (a :: l) = ligCost cfg a + batchCost cfg l := by
  simp [batchCost]

theorem fillBatch_append (cfg : SchedCfg) (b : ℚ) :
    ∀ (ligs : List ℕ) (size cost : ℕ),
      (fillBatch cfg b size cost ligs).1 ++ (fillBatch cfg b size cost ligs).2 = ligs := by
  intro ligs
  induction ligs with
  | nil => intro size cost; simp [fillBatch_nil]
  | cons a rest ih =>
    intro size cost
    rw [fillBatch_cons]
    split <;> simp [ih]

theorem fillBatch_guard (cfg : SchedCfg) (b : ℚ) :
    ∀ (ligs : List ℕ) (size cost k : ℕ),
      k < (fillBatch cfg b size cost ligs).1.length →
      predictQ cfg (size + k)
        (cost + batchCost cfg ((fillBatch cfg b size cost ligs).1.take k)) < b := by
  intro ligs
  induction ligs with
  | nil => intro size cost k hk; simp [fillBatch_nil] at hk
  | cons a rest ih =>
    intro size cost k hk
    rw [fillBatch_cons] at hk ⊢
    by_cases hguard : predictQ cfg size cost < b
    · rw [if_pos hguard] at hk ⊢
      cases k with
      | zero => simpa [batchCost_nil] using hguard
      | succ k =>
        simp only [List.length_cons, Nat.add_lt_add_iff_right] at hk
        have h := ih (size + 1) (cost + ligCost cfg a) k hk
        have h1 : size + (k + 1) = size + 1 + k := by omega
        simpa [List.take_succ_cons, batchCost_cons, h1, Nat.add_assoc] using h
    · rw [if_neg hguard] at hk
      simp at hk

theorem runBatches_flatten (cfg : SchedCfg) (b : ℚ) :
    ∀ (fuel : ℕ) (ligs : List ℕ) (plan : List (List ℕ)),
      runBatches cfg b fuel ligs = some plan → plan.flatten = ligs := by
  intro fuel
  induction fuel with
  | zero =>
    intro ligs plan h
    cases ligs with
    | nil => rw [runBatches_nil] at h; cases h; rfl
    | cons a rest => cases h
  | succ fuel ih =>
    intro ligs plan h
    cases ligs with
    | nil => rw [runBatches_nil] at h; cases h; rfl
    | cons a rest =>
      rw [runBatches_succ_cons] at h
      cases hrec : runBatches cfg b fuel (fillBatch cfg b 0 0 (a :: rest)).2 with
      | none => rw [hrec] at h; cases h
      | some plan' =>
        rw [hrec] at h
        cases h
        rw [List.flatten_cons, ih _ _ hrec, fillBatch_append]

theorem runBatches_mem_guard (cfg : SchedCfg) (b : ℚ) :
    ∀ (fuel : ℕ) (ligs : List ℕ) (plan : List (List ℕ)),
      runBatches cfg b fuel ligs = some plan →
      ∀ batch ∈ plan, ∀ k < batch.length,
        predictQ cfg k (batchCost cfg (batch.take k)) < b := by
  intro fuel
  induction fuel with
  | zero =>
    intro ligs plan h batch hb
    cases ligs with
    | nil => rw [runBatches_nil] at h; cases h; simp at hb
    | cons a rest => cases h
  | succ fuel ih =>
    intro ligs plan h batch hb k hk
    cases ligs with
    | nil => rw [runBatches_nil] at h; cases h; simp at hb
    | cons a rest =>
      rw [runBatches_succ_cons] at h
      cases hrec : runBatches cfg b fuel (fillBatch cfg b 0 0 (a :: rest)).2 with
      | none => rw [hrec] at h; cases h
      | some plan' =>
        rw [hrec] at h
        cases h
        rcases List.mem_cons.mp hb with hfst | hmem
        · subst hfst
          have := fillBatch_guard cfg b (a :: rest) 0 0 k hk
          simpa using this
        · exact ih _ _ hrec batch hmem k hk

theorem fillBatch_head_accepted (cfg : SchedCfg) (b : ℚ) (a : ℕ) (rest : List ℕ)
    (h0 : predictQ cfg 0 0 < b) :
    (fillBatch cfg b 0 0 (a :: rest)).1 ≠ [] := by
  rw [fillBatch_cons, if_pos h0]
  simp

theorem runBatches_total (cfg : SchedCfg) (b : ℚ) (h0 : predictQ cfg 0 0 < b) :
    ∀ (fuel : ℕ) (ligs : List ℕ), ligs.length ≤ fuel →
      ∃ plan, runBatches cfg b fuel ligs = some plan ∧ [] ∉ plan := by
  intro fuel
  induction fuel with
  | zero =>
    intro ligs h
    have : ligs = [] := List.length_eq_zero.mp (Nat.le_zero.mp h)
    subst this
    exact ⟨[], runBatches_nil cfg b 0, by simp⟩
  | succ fuel ih =>
    intro ligs h
    cases ligs with
    | nil => exact ⟨[], runBatches_nil cfg b (fuel + 1), by simp⟩
    | cons a rest =>
      have hne : (fillBatch cfg b 0 0 (a :: rest)).1 ≠ [] :=
        fillBatch_head_accepted cfg b a rest h0
      have hlensum : (fillBatch cfg b 0 0 (a :: rest)).1.length
          + (fillBatch cfg b 0 0 (a :: rest)).2.length = rest.length + 1 := by
        have := congrArg List.length (fillBatch_append cfg b (a :: rest) 0 0)
        simpa using this
      have hpos : 1 ≤ (fillBatch cfg b 0 0 (a :: rest)).1.length := by
        cases hfb : (fillBatch cfg b 0 0 (a :: rest)).1 with
        | nil => exact absurd hfb hne
        | cons x xs => simp [hfb]
      have hlen : (fillBatch cfg b 0 0 (a :: rest)).2.length ≤ fuel := by
        simp only [List.length_cons] at h
        omega
      obtain ⟨plan, hp, hnp⟩ := ih (fillBatch cfg b 0 0 (a :: rest)).2 hlen
      refine ⟨(fillBatch cfg b 0 0 (a :: rest)).1 :: plan, ?_, ?_⟩
      · rw [runBatches_succ_cons, hp]; rfl
      · intro hmem
        rcases List.mem_cons.mp hmem with h1 | h2
        · exact hne h1.symm
        · exact hnp h2

theorem runBatches_singletons (cfg : SchedCfg) (b : ℚ) (h0 : predictQ cfg 0 0 < b) :
    ∀ ligs : List ℕ, (∀ a ∈ ligs, b ≤ predictQ cfg 1 (ligCost cfg a)) →
      runBatches cfg b ligs.length ligs = some (ligs.map fun a => [a]) := by
  intro ligs
  induction ligs with
  | nil => intro _; simpa using runBatches_nil cfg b 0
  | cons a rest ih =>
    intro hbig
    have hfill : fillBatch cfg b 0 0 (a :: rest) = ([a], rest) := by
      rw [fillBatch_cons, if_pos h0]
      cases rest with
      | nil => simp [fillBatch_nil]
      | cons a2 r2 =>
        have hng : ¬ predictQ cfg (0 + 1) (0 + ligCost cfg a) < b := by
          simpa using not_lt.mpr (hbig a (by simp))
        rw [fillBatch_cons, if_neg hng]
    rw [show (a :: rest).length = rest.length + 1 from rfl,
      runBatches_succ_cons, hfill]
    rw [ih (fun x hx => hbig x (by simp [hx]))]
    rfl

theorem fillBatch_all (cfg : SchedCfg) (b : ℚ) :
    ∀ (ligs : List ℕ) (size cost : ℕ),
      (∀ k < ligs.length,
        predictQ cfg (size + k) (cost + batchCost cfg (ligs.take k)) < b) →
      fillBatch cfg b size cost ligs = (ligs, []) := by
  intro ligs
  induction ligs with
  | nil => intro size cost _; rfl
  | cons a rest ih =>
    intro size cost h
    have h0 : predictQ cfg size cost < b := by
      have := h 0 (by simp)
      simpa [batchCost_nil] using this
    rw [fillBatch_cons, if_pos h0]
    have hrest : fillBatch cfg b (size + 1) (cost + ligCost cfg a) rest = (rest, []) := by
      apply ih
      intro k hk
      have := h (k + 1) (by simpa using Nat.succ_lt_succ hk)
      have h1 : size + (k + 1) = size + 1 + k := by omega
      simpa [List.take_succ_cons, batchCost_cons, h1, Nat.add_assoc] using this
    rw [hrest]

/-- C1 (counterexample): the claim "for every budget, the scheduling loop
terminates and every batch it submits contains at least one ligand" fails:
with the high-memory vina coefficients, budget 100 MiB (below the
predictor's empty-batch value 20017) and the single ligand list `[10]`,
the inner loop accepts no ligand (the batch is empty) and the outer loop
never terminates, however much fuel it is given.  The budget is also
smaller than the single ligand's predicted cost, yet no one-ligand batch
is ever produced. -/
theorem scheduler_stall_counterexample :
    schedulerStalls cfgV100 100 [10] ∧ (fillBatch cfgV100 100 0 0 [10]).1 = [] := by
  constructor
  · intro fuel
    induction fuel with
    | zero => rfl
    | succ n ih =>
      have h2 : (fillBatch cfgV100 100 0 0 [10]).2 = [10] := by decide
      rw [runBatches_succ_cons, h2, ih]
      rfl
  · decide

/-- C1 (amended): whenever the predictor's empty-batch value
`predict_peak_memory 0 e 0` is strictly below the budget — which the
original claim's "every budget" fails to guarantee — the scheduling loop
terminates within `ligs.length` outer iterations, every submitted batch
contains at least one ligand, and with a budget no larger than every
single ligand's predicted cost it produces one batch per ligand, never an
empty batch and never a dropped ligand. -/
theorem scheduler_no_stall_of_base_predict_lt_budget (cfg : SchedCfg) (b : ℚ)
    (ligs : List ℕ) (h0 : predictQ cfg 0 0 < b) :
    (∃ plan, runBatches cfg b ligs.length ligs = some plan ∧ [] ∉ plan) ∧
    ((∀ a ∈ ligs, b ≤ predictQ cfg 1 (ligCost cfg a)) →
      runBatches cfg b ligs.length ligs = some (ligs.map fun a => [a])) :=
  ⟨runBatches_total cfg b h0 ligs.length ligs le_rfl,
    fun hbig => runBatches_singletons cfg b h0 ligs hbig⟩

/-- Witness for the amended C1: at budget 20018 (just above the
empty-batch prediction 20017 and far below each ligand's own predicted
cost 1217818) the scheduler terminates and produces one singleton batch
per ligand. -/
theorem scheduler_no_stall_witness :
    (∃ plan, runBatches cfgV100 20018 2 [10000, 10000] = some plan ∧ [] ∉ plan) ∧
    runBatches cfgV100 20018 2 [10000, 10000] = some [[10000], [10000]] := by
  have h := scheduler_no_stall_of_base_predict_lt_budget cfgV100 20018
    [10000, 10000] (by decide)
  refine ⟨h.1, ?_⟩
  have h2 := h.2 (by decide)
  simpa using h2

/-- C2: whenever the scheduling loop completes, the batch plan is an
exact partition of the GPU ligand list: concatenating the batches in
order gives back exactly the input list, so each ligand occurs in exactly
one batch and input order is preserved across batch boundaries. -/
theorem scheduler_partition_exact (cfg : SchedCfg) (b : ℚ) (fuel : ℕ)
    (ligs : List ℕ) (plan : List (List ℕ))
    (h : runBatches cfg b fuel ligs = some plan) : plan.flatten = ligs :=
  runBatches_flatten cfg b fuel ligs plan h

/-- Witness for C2: a concrete completed run whose plan flattens back to
the input ligand list. -/
theorem scheduler_partition_exact_witness :
    runBatches cfgV100 (10 ^ 6) 3 [5, 6, 7] = some [[5, 6, 7]] ∧
    ([[5, 6, 7]] : List (List ℕ)).flatten = [5, 6, 7] :=
  ⟨by decide,
    scheduler_partition_exact cfgV100 (10 ^ 6) 3 [5, 6, 7] [[5, 6, 7]] (by decide)⟩

/-- C3: for every ligand the scheduler accepts into a batch, the
predicted memory at the moment of acceptance (the guard value
`predict_peak_memory` evaluated on the batch state the code checks before
pushing the ligand, i.e. on the ligands already placed) is strictly less
than the effective budget.  This holds for every accepted ligand, so in
particular for all but a lone first ligand, as the claim states. -/
theorem scheduler_accept_below_budget (cfg : SchedCfg) (b : ℚ) (fuel : ℕ)
    (ligs : List ℕ) (plan : List (List ℕ)) (batch : List ℕ) (k : ℕ)
    (hrun : runBatches cfg b fuel ligs = some plan) (hb : batch ∈ plan)
    (hk : k < batch.length) :
    predictQ cfg k (batchCost cfg (batch.take k)) < b :=
  runBatches_mem_guard cfg b fuel ligs plan hrun batch hb k hk

/-- Witness for C3: in a concrete completed run, the acceptance of the
first ligand of the first batch was checked against the budget. -/
theorem scheduler_accept_below_budget_witness :
    predictQ cfgV100 0 (batchCost cfgV100 (([5] : List ℕ).take 0)) < 30000 :=
  scheduler_accept_below_budget cfgV100 30000 1 [5] [[5]] [5] 0
    (by decide) (by decide) (by decide)

/-- C4: for all inputs the peak-memory predictor returns exactly the
truncated affine combination
`c0*batch_size + c1*exhaustiveness*batch_size + c2*cost + c3`, with the
coefficients selected by the device-class flag and, in the high-memory
class, by scoring-function family; being a total function it always
returns a number, with no error path. -/
theorem predict_peak_memory_affine (b e c : ℕ) (v a : Bool) :
    predict_peak_memory b e c v a = ⌊predict_spec_formula b e c v a⌋₊ := by
  have key : ∀ N : ℕ, (N : ℕ) / 10 ^ 7 = ⌊((N : ℚ)) / ((10 ^ 7 : ℕ) : ℚ)⌋₊ := by
    intro N
    rw [Nat.floor_div_nat, Nat.floor_natCast]
  cases v <;> cases a
  · have h : predict_spec_formula b e c false false
        = ((11660670 * b + 38676 * e * b + 119598 * c + 53138480000 : ℕ) : ℚ)
          / ((10 ^ 7 : ℕ) : ℚ) := by
      simp only [predict_spec_formula, pm_c0, pm_c1, pm_c2, pm_c3]
      rw [eq_div_iff (by norm_num)]
      push_cast
      ring_nf
    rw [h, ← key]
    rfl
  · have h : predict_spec_formula b e c false true
        = ((11660670 * b + 38676 * e * b + 119598 * c + 53138480000 : ℕ) : ℚ)
          / ((10 ^ 7 : ℕ) : ℚ) := by
      simp only [predict_spec_formula, pm_c0, pm_c1, pm_c2, pm_c3]
      rw [eq_div_iff (by norm_num)]
      push_cast
      ring_nf
    rw [h, ← key]
    rfl
  · have h : predict_spec_formula b e c true false
        = ((12148690 * b + 38522 * e * b + 119780 * c + 200177200000 : ℕ) : ℚ)
          / ((10 ^ 7 : ℕ) : ℚ) := by
      simp only [predict_spec_formula, pm_c0, pm_c1, pm_c2, pm_c3]
      rw [eq_div_iff (by norm_num)]
      push_cast
      ring_nf
    rw [h, ← key]
    rfl
  · have h : predict_spec_formula b e c true true
        = ((19116450 * b + 39108 * e * b + 792161 * c + 200526400000 : ℕ) : ℚ)
          / ((10 ^ 7 : ℕ) : ℚ) := by
      simp only [predict_spec_formula, pm_c0, pm_c1, pm_c2, pm_c3]
      rw [eq_div_iff (by norm_num)]
      push_cast
      ring_nf
    rw [h, ← key]
    rfl

/-- C5: with no accelerator device the budget falls back to the fixed
constant 32000 MiB (subject only to the same user-ceiling clamp) instead
of failing the run; with a device present the budget is the probed
available memory times 0.95, clamped to the `--max_gpu_memory` ceiling
exactly when that ceiling is positive and smaller. -/
theorem probe_budget_fallback_and_clamp (avail : ℕ) (g : ℤ) (dc : ℕ)
    (hdc : 0 < dc) :
    (probe_device 0 avail g).max_memory
        = (if 0 < g ∧ (g : ℚ) < 32000 then (g : ℚ) else 32000) ∧
    (probe_device dc avail g).max_memory
        = (if 0 < g ∧ (g : ℚ) < ((avail / 1024 / 1024 : ℕ) : ℚ) * (95 / 100)
           then (g : ℚ) else ((avail / 1024 / 1024 : ℕ) : ℚ) * (95 / 100)) := by
  constructor
  · simp [probe_device]
  · simp [probe_device, hdc]

/-- Witness for C5 at a 32 GiB probe (`avail = 2^35` bytes) and ceiling
5000 MiB, with one device present. -/
theorem probe_budget_fallback_and_clamp_witness :
    (probe_device 0 (2 ^ 35) 5000).max_memory
        = (if 0 < (5000 : ℤ) ∧ ((5000 : ℤ) : ℚ) < 32000 then ((5000 : ℤ) : ℚ)
           else 32000) ∧
    (probe_device 1 (2 ^ 35) 5000).max_memory
        = (if 0 < (5000 : ℤ)
             ∧ ((5000 : ℤ) : ℚ) < (((2 ^ 35) / 1024 / 1024 : ℕ) : ℚ) * (95 / 100)
           then ((5000 : ℤ) : ℚ)
           else (((2 ^ 35) / 1024 / 1024 : ℕ) : ℚ) * (95 / 100)) :=
  probe_budget_fallback_and_clamp (2 ^ 35) 5000 1 (by decide)

/-- C6: for every configuration selecting the `ad4` scoring function, the
scoring-function validation stage (receptor/maps exclusivity followed by
the ad4 rules) fails if and only if a receptor path is present or no maps
path is present. -/
theorem ad4_validation_iff (c : RunConfiguration) (h : c.sf_name = "ad4") :
    validate_sf c = false ↔ (c.hasReceptor = true ∨ c.hasMaps = false) := by
  cases hR : c.hasReceptor <;> cases hM : c.hasMaps <;>
    simp [validate_sf, validate_scoring, validate_receptor_maps, h, hR, hM]

/-- Witness for C6: an `ad4` configuration with neither receptor nor
maps. -/
theorem ad4_validation_iff_witness :
    validate_sf cfgAd4NoMaps = false
      ↔ (cfgAd4NoMaps.hasReceptor = true ∨ cfgAd4NoMaps.hasMaps = false) :=
  ad4_validation_iff cfgAd4NoMaps rfl

/-- C7: when the GPU batch path is selected (no `--ligand`, and
`--gpu_batch` or `--ligand_index` present) together with any of
`randomize_only`, `score_only`, `local_only`, a validated run dispatches
to the notice action: it emits the user-facing notice and returns exit
code 0 early without performing any engine work. -/
theorem gpu_batch_unsupported_mode_exit (c : RunConfiguration)
    (hv : validate c = true) (hL : c.hasLigand = false)
    (hg : (c.hasGpuBatch || c.hasLigandIndex) = true)
    (hm : (c.randomize_only || c.score_only || c.local_only) = true) :
    mainRun c = (0, some MainAction.gpuBatchNotice) ∧
    performsEngineWork MainAction.gpuBatchNotice = false ∧
    emitsNotice MainAction.gpuBatchNotice = true := by
  refine ⟨?_, rfl, rfl⟩
  simp [mainRun, hv, dispatch, hL, hg, hm]

/-- Witness for C7: a validated `--gpu_batch --score_only`
configuration. -/
theorem gpu_batch_unsupported_mode_exit_witness :
    mainRun cfgGpuScore = (0, some MainAction.gpuBatchNotice) ∧
    performsEngineWork MainAction.gpuBatchNotice = false ∧
    emitsNotice MainAction.gpuBatchNotice = true :=
  gpu_batch_unsupported_mode_exit cfgGpuScore (by decide) rfl rfl rfl

/-- C8: with a budget larger than every predicted value reached while
filling (checked before each acceptance, on every prefix of the list) the
scheduler produces exactly one batch containing all the ligands, for
every non-empty ligand list and any positive iteration fuel. -/
theorem scheduler_single_batch_of_large_budget (cfg : SchedCfg) (b : ℚ)
    (ligs : List ℕ) (fuel : ℕ) (hne : ligs ≠ []) (hfuel : 1 ≤ fuel)
    (h : ∀ k < ligs.length, predictQ cfg k (batchCost cfg (ligs.take k)) < b) :
    runBatches cfg b fuel ligs = some [ligs] := by
  cases ligs with
  | nil => exact absurd rfl hne
  | cons a rest =>
    cases fuel with
    | zero => omega
    | succ fuel =>
      have hfill : fillBatch cfg b 0 0 (a :: rest) = (a :: rest, []) := by
        apply fillBatch_all
        intro k hk
        simpa using h k hk
      rw [runBatches_succ_cons, hfill]
      simp [runBatches_nil]

/-- Witness for C8: a 10^7 MiB budget exceeds every prediction reached on
the list `[1, 2]`, and the scheduler emits the single batch `[1, 2]`. -/
theorem scheduler_single_batch_of_large_budget_witness :
    runBatches cfgV100 (10 ^ 7) 2 [1, 2] = some [[1, 2]] :=
  scheduler_single_batch_of_large_budget cfgV100 (10 ^ 7) [1, 2] 2
    (by decide) (by decide) (by decide)

/-- C9: a validated configuration whose only ligand source is the CPU
batch variant (`--batch` given, with no `--ligand`, no `--gpu_batch` and
no `--ligand_index`) dispatches to the fall-through action: no engine
work at all (no scoring, search, or pose output) and exit code 0. -/
theorem cpu_batch_only_no_engine_work (c : RunConfiguration)
    (hv : validate c = true) (_hb : c.hasBatch = true)
    (hL : c.hasLigand = false) (hg : c.hasGpuBatch = false)
    (hi : c.hasLigandIndex = false) :
    mainRun c = (0, some MainAction.noLigandWork) ∧
    performsEngineWork MainAction.noLigandWork = false := by
  refine ⟨?_, rfl⟩
  simp [mainRun, hv, dispatch, hL, hg, hi]

/-- Witness for C9: a validated `--batch`-only configuration. -/
theorem cpu_batch_only_no_engine_work_witness :
    mainRun cfgCpuBatch = (0, some MainAction.noLigandWork) ∧
    performsEngineWork MainAction.noLigandWork = false :=
  cpu_batch_only_no_engine_work cfgCpuBatch (by decide) rfl rfl rfl rfl

/-- C10: the device-class flag is computed from the probed (or default
32000) memory before the `--max_gpu_memory` ceiling is applied: it does
not depend on the ceiling at all, the no-device default selects the
high-memory class, and a positive ceiling below the pre-clamp budget
lowers the budget to the ceiling (while, by the first part, never
switching the coefficient set). -/
theorem device_class_fixed_before_ceiling (dc avail : ℕ) (g : ℤ) :
    (probe_device dc avail g).use_v100 = (probe_device dc avail 0).use_v100 ∧
    (probe_device 0 avail g).use_v100 = true ∧
    (0 < g → (g : ℚ) < (probe_device dc avail 0).max_memory →
      (probe_device dc avail g).max_memory = (g : ℚ)) := by
  refine ⟨rfl, ?_, ?_⟩
  · simp [probe_device]
    norm_num
  · intro hg hlt
    simp only [probe_device] at hlt ⊢
    rw [if_pos]
    constructor
    · exact hg
    · simpa using hlt

/-- Witness for C10: a 16000 MiB ceiling (below the 17000 class
threshold) on a 32 GiB device lowers the budget to 16000 without changing
the device class. -/
theorem device_class_fixed_before_ceiling_witness :
    (probe_device 1 (2 ^ 35) 16000).use_v100
        = (probe_device 1 (2 ^ 35) 0).use_v100 ∧
    (probe_device 1 (2 ^ 35) 16000).max_memory = ((16000 : ℤ) : ℚ) := by
  have h := device_class_fixed_before_ceiling 1 (2 ^ 35) 16000
  exact ⟨h.1, h.2.2 (by decide) (by norm_num [probe_device])⟩
